import Mathlib

/-!
Verification of the gemini-vector-search repository's natural-language
specification against a shallow embedding of its code.

The repository is a retrieval-augmented QA platform: a backend HTTP API over a
vector database plus a React single-page client.  The client sources are under
static/gemini-ui (with several duplicated page variants elsewhere in the tree);
the backend Python services are not part of the source snapshot, only their
interface documents (OpenAPI description, postman collections) and the SQL
migration are, so backend behaviour is modelled from the specification where
needed (each such definition is marked "Modelled from the spec").

Numbers that the JavaScript code manipulates as IEEE doubles are modelled as
real numbers; machine-level floating-point rounding is outside the scope of
these statements.
-/

namespace GeminiVS

/-! ## Client-side cache service (src/services/cacheService.js, apiService.js)

The cache object maps string keys to entries holding the payload, the write
timestamp and a per-entry time-to-live.  We model the payload opaquely with a
type parameter and the cache itself as an association list of key/entry pairs
(one entry per key, matching a JS object's own properties). -/

/-- A cache entry as stored by setCache: payload, write timestamp, ttl. -/
structure CacheEntry (α : Type) where
  data : α
  timestamp : Nat
  ttl : Nat
  deriving Repr, DecidableEq

/-- The client cache: an association list from keys to entries. -/
abbrev Cache (α : Type) : Type := List (String × CacheEntry α)

/-- clearCacheByPrefix from cacheService.js: delete every key that starts with
the given prefix string, keeping all other entries. -/
def clearCacheByPrefix {α : Type} (p : String) (c : Cache α) : Cache α :=
  c.filter (fun kv => ! kv.1.startsWith p)

/-- invalidateCache from apiService.js: forwards to clearCacheByPrefix. -/
def invalidateCache {α : Type} (p : String) (c : Cache α) : Cache α :=
  clearCacheByPrefix p c

/-! ## Upload page variants (UploadDocument.jsx and its duplicates)

Three copies of the upload page exist: the main client page
static/gemini-ui/src/pages/UploadDocument.jsx, an i18n-ized variant with wider
sliders (first file of src/unnamed/part_007), and an older Chinese-hardcoded
variant (second file of src/unnamed/part_007). -/

/-- An antd slider configuration: minimum, maximum and step.  The slider
accepts exactly the values min + k * step that do not exceed max. -/
structure SliderCfg where
  min : Nat
  max : Nat
  step : Nat
  deriving Repr, DecidableEq

/-- Whether a value is selectable on a slider. -/
def sliderAccepts (s : SliderCfg) (v : Nat) : Bool :=
  decide (s.min ≤ v) && decide (v ≤ s.max) && ((v - s.min) % s.step == 0)

/-- Chunk-size slider of the main upload page (UploadDocument.jsx line 150):
min 100, max 3000, default step 1. -/
def mainChunkSizeSlider : SliderCfg := ⟨100, 3000, 1⟩

/-- Overlap slider of the main upload page (UploadDocument.jsx line 162):
min 0, max 500, default step 1. -/
def mainOverlapSlider : SliderCfg := ⟨0, 500, 1⟩

/-- Chunk-size slider of the part_007 i18n variant (lines 151-183):
min 100, max 5000, step 100. -/
def variantChunkSizeSlider : SliderCfg := ⟨100, 5000, 100⟩

/-- Overlap slider of the part_007 i18n variant (lines 192-224):
min 0, max 500, step 50. -/
def variantOverlapSlider : SliderCfg := ⟨0, 500, 50⟩

/-- Initial value of the useIntelligentChunking switch on every variant of the
upload page (useState(true), initialValue true, defaultChecked). -/
def useIntelligentChunkingDefault : Bool := true

/-- A multipart form value: string, number or boolean. -/
inductive FormValue where
  | str (v : String)
  | num (v : Nat)
  | bool (v : Bool)
  deriving Repr, DecidableEq

/-- JavaScript "v or default" on an optional numeric form field:
form.getFieldValue(f) over 1000, where an unset field or the (falsy) value 0
falls back to the default. -/
def jsNumOr (v : Option Nat) (d : Nat) : Nat :=
  match v with
  | some n => if n = 0 then d else n
  | none => d

/-- The multipart data sent by the main upload page and by the part_007 i18n
variant (uploadProps.data, UploadDocument.jsx lines 69-73 and part_007 lines
69-73): a chunking_strategy field plus chunk_size and overlap. -/
def mainUploadData (useIntelligent : Bool) (chunkSizeField overlapField : Option Nat) :
    List (String × FormValue) :=
  [("chunking_strategy",
      FormValue.str (if useIntelligent then "intelligent" else "fixed_size")),
   ("chunk_size", FormValue.num (jsNumOr chunkSizeField 1000)),
   ("overlap", FormValue.num (jsNumOr overlapField 200))]

/-- The multipart data sent by the older Chinese-hardcoded variant (second file
of part_007, lines 375-379): a boolean use_intelligent_chunking field plus
chunk_size and overlap. -/
def legacyUploadData (useIntelligent : Bool) (chunkSizeField overlapField : Option Nat) :
    List (String × FormValue) :=
  [("use_intelligent_chunking", FormValue.bool useIntelligent),
   ("chunk_size", FormValue.num (jsNumOr chunkSizeField 1000)),
   ("overlap", FormValue.num (jsNumOr overlapField 200))]

/-! ## Home dashboard statistics (static/gemini-ui/src/pages/Home.jsx) -/

/-- One row of the document-list response; the dashboard only inspects the
length of the documents array, so rows are opaque. -/
structure DocRow where
  id : Nat
  deriving Repr, DecidableEq

/-- The GET /documents response used by fetchStats: reported total plus the
returned page of documents (requested with limit 1). -/
structure DocsResponse where
  total : Nat
  documents : List DocRow
  deriving Repr, DecidableEq

/-- The statistics state set by Home.jsx. -/
structure HomeStats where
  totalDocuments : Nat
  totalChunks : Nat
  lastUpdated : String
  deriving Repr, DecidableEq

/-- Placeholder shown when a timestamp is unavailable (t common.noData). -/
def noDataText : String := "No data"

/-- fetchStats from Home.jsx lines 24-52.  The database-status call and the
document-list call happen in one try block, so a failure of either lands in the
catch branch that zeroes both counters.  The chunk total is an estimate:
total * 3 when the returned page is non-empty, otherwise 0.  Date formatting
(toLocaleString) is modelled as the identity on the timestamp string. -/
def fetchStats (dbStatus : Except Unit (Option String))
    (docs : Except Unit DocsResponse) : HomeStats :=
  match dbStatus, docs with
  | Except.ok ts, Except.ok d =>
      { totalDocuments := d.total
        totalChunks := if d.documents.length > 0 then d.total * 3 else 0
        lastUpdated := match ts with
          | some t => t
          | none => noDataText }
  | _, _ =>
      { totalDocuments := 0, totalChunks := 0, lastUpdated := noDataText }

/-! ## Client authentication (utils/authUtils.js, context/AuthContext.jsx,
constants/index.js)

The credential map is resolved from the VITE_AUTH_CREDENTIALS environment value.
The code first tries JSON.parse; on a parse error it evaluates the raw string as
a JavaScript expression (eval); only when both fail, or the value is absent or
empty (falsy), does it fall back to the hardcoded default map.  JSON.parse and
eval are external builtins; we model the fragment of them that is relevant to a
flat username-to-password map: a brace-delimited list of key/value pairs whose
values are double-quoted strings, where strict JSON requires double-quoted keys
while the JavaScript-expression reading additionally accepts bare identifier
keys.  String escape sequences inside literals are not modelled. -/

/-- Opening brace character. -/
def lbrace : Char := Char.ofNat 123

/-- Closing brace character. -/
def rbrace : Char := Char.ofNat 125

/-- Double-quote character. -/
def dquote : Char := Char.ofNat 34

/-- Whitespace recognised between JSON tokens. -/
def isWsChar (c : Char) : Bool :=
  c == ' ' || c == '\n' || c == '\t' || c == '\r'

/-- Drop leading whitespace. -/
def skipWs : List Char → List Char
  | [] => []
  | c :: rest => if isWsChar c then skipWs rest else c :: rest

/-- Read characters up to the next double quote; the input starts right after
the opening quote.  Returns the literal's body and the rest of the input. -/
def readQuotedBody : List Char → Option (List Char × List Char)
  | [] => none
  | c :: rest =>
    if c == dquote then some ([], rest)
    else
      match readQuotedBody rest with
      | some (body, tail) => some (c :: body, tail)
      | none => none

/-- Character usable in a bare JavaScript identifier key. -/
def isIdentChar (c : Char) : Bool :=
  c.isAlpha || c.isDigit || c == '_' || c == '$'

/-- Longest identifier-character run at the head of the input. -/
def readIdentRun : List Char → (List Char × List Char)
  | [] => ([], [])
  | c :: rest =>
    if isIdentChar c then
      match readIdentRun rest with
      | (run, tail) => (c :: run, tail)
    else ([], c :: rest)

/-- Parse one map key after optional whitespace.  Strict JSON (js = false)
accepts a double-quoted string only; the JavaScript reading (js = true) also
accepts a bare identifier. -/
def parseKey (js : Bool) (l : List Char) : Option (String × List Char) :=
  match skipWs l with
  | [] => none
  | c :: rest =>
    if c == dquote then
      match readQuotedBody rest with
      | some (body, tail) => some (String.mk body, tail)
      | none => none
    else if js && isIdentChar c && !c.isDigit then
      match readIdentRun (c :: rest) with
      | (run, tail) => some (String.mk run, tail)
    else none

/-- Parse one map value after optional whitespace: a double-quoted string. -/
def parseValue (l : List Char) : Option (String × List Char) :=
  match skipWs l with
  | [] => none
  | c :: rest =>
    if c == dquote then
      match readQuotedBody rest with
      | some (body, tail) => some (String.mk body, tail)
      | none => none
    else none

/-- Parse a non-empty comma-separated pair list up to and including the closing
brace.  Fuel bounds the recursion by the input length. -/
def parsePairs (js : Bool) : Nat → List Char → Option (List (String × String) × List Char)
  | 0, _ => none
  | Nat.succ fuel, l =>
    match parseKey js l with
    | none => none
    | some (k, l1) =>
      match skipWs l1 with
      | ':' :: l2 =>
        match parseValue l2 with
        | none => none
        | some (v, l3) =>
          match skipWs l3 with
          | ',' :: l4 =>
            match parsePairs js fuel l4 with
            | some (ps, tail) => some ((k, v) :: ps, tail)
            | none => none
          | c :: l4 =>
            if c == rbrace then some ([(k, v)], l4) else none
          | [] => none
      | _ => none

/-- Parse a whole flat credential map: a brace-delimited object whose values
are strings, with nothing but whitespace around it. -/
def parseCredMap (js : Bool) (s : String) : Option (List (String × String)) :=
  match skipWs s.toList with
  | [] => none
  | c :: rest =>
    if c == lbrace then
      match skipWs rest with
      | c2 :: tail =>
        if c2 == rbrace then
          if (skipWs tail).isEmpty then some [] else none
        else
          match parsePairs js (rest.length + 1) rest with
          | some (ps, tail2) => if (skipWs tail2).isEmpty then some ps else none
          | none => none
      | [] => none
    else none

/-- Model of JSON.parse restricted to flat string-to-string maps. -/
def jsonParseCredMap (s : String) : Option (List (String × String)) :=
  parseCredMap false s

/-- Model of the eval fallback: the same grammar, with bare identifier keys
also allowed, as a JavaScript object-literal expression provides. -/
def jsEvalCredMap (s : String) : Option (List (String × String)) :=
  parseCredMap true s

/-- DEFAULTS.CREDENTIALS from constants/index.js lines 38-42, duplicated
inline in AuthContext.jsx getCredentials. -/
def defaultCredentials : List (String × String) :=
  [("admin", "Pa$$w0rd"), ("user1", "123456"), ("user2", "password123")]

/-- getCredentialsFromEnv from authUtils.js lines 10-41 (and the identical
getCredentials in AuthContext.jsx lines 9-45): a present, truthy environment
value is JSON-parsed; on failure it is evaluated as a JavaScript expression;
the default map is used when the value is absent, empty, or both fail. -/
def getCredentialsFromEnv (env : Option String) : List (String × String) :=
  match env with
  | none => defaultCredentials
  | some s =>
    if s = "" then defaultCredentials
    else
      match jsonParseCredMap s with
      | some m => m
      | none =>
        match jsEvalCredMap s with
        | some m => m
        | none => defaultCredentials

/-- validateCredentials from authUtils.js lines 58-61: the stored password for
the username must equal the supplied password (an absent username never
validates, as credentials[username] is undefined). -/
def validateCredentials (creds : List (String × String)) (username password : String) : Bool :=
  creds.lookup username == some password

/-- The localized auth.invalidCredentials message (locales en.js line 35 and
zh.js line 35); Chinese is the fallback locale. -/
def tAuthInvalidCredentials (lang : String) : String :=
  if lang = "en" then "Invalid username or password" else "用户名或密码错误"

/-- JSON.stringify of the stored user record, an object with the single
username field. -/
def jsonUserRecord (username : String) : String :=
  "\x7b\"username\":\"" ++ username ++ "\"\x7d"

/-- localStorage.setItem: replace the value under the key, or append a new
binding. -/
def storageSetItem (st : List (String × String)) (k v : String) : List (String × String) :=
  if st.any (fun kv => kv.1 == k) then
    st.map (fun kv => if kv.1 == k then (k, v) else kv)
  else st ++ [(k, v)]

/-- The authentication context's mutable state: current user, error message,
and browser-local storage. -/
structure AuthState where
  user : Option String
  error : String
  storage : List (String × String)
  deriving Repr, DecidableEq

/-- login from AuthContext.jsx lines 70-91: clear the error, validate the pair
against the resolved map; on success store the user record under the key user
plus the raw pair under api_username and api_password and return true; on
failure set the localized invalid-credentials error, touch no storage, and
return false. -/
def login (creds : List (String × String)) (lang username password : String)
    (st : AuthState) : Bool × AuthState :=
  let st0 : AuthState := { st with error := "" }
  if validateCredentials creds username password then
    let storage1 := storageSetItem st0.storage "user" (jsonUserRecord username)
    let storage2 := storageSetItem storage1 "api_username" username
    let storage3 := storageSetItem storage2 "api_password" password
    (true, { st0 with user := some username, storage := storage3 })
  else
    (false, { st0 with error := tAuthInvalidCredentials lang })

/-! ## Conversational assistant (QueryAssistant, second file of
src/unnamed/part_006, lines 390-1021)

Messages are role/content records with an error flag and an ISO timestamp;
reference snippets attached to assistant messages do not affect the persistence
and round-trip properties and are not modelled. -/

/-- One chat message as kept in the conversations state. -/
structure Message where
  role : String
  content : String
  isError : Bool
  timestamp : String
  deriving Repr, DecidableEq

/-- JavaScript slice(-n): the n most recent elements (the whole list when it is
shorter). -/
def lastN {α : Type} (n : Nat) (l : List α) : List α :=
  l.drop (l.length - n)

/-- The system notice appended after a quota-limited save (part_006 lines
469-477). -/
def quotaNotice (now : String) : Message :=
  { role := "system"
    content := "由于浏览器存储空间限制，只保留了最近10条对话记录"
    isError := false
    timestamp := now }

/-- The save-conversations effect (part_006 lines 450-483).  The stored value
is the assistantConversations key's message list; fits models whether
localStorage.setItem succeeds for a payload, false meaning it throws
QuotaExceededError (the only storage failure localStorage raises for a string
payload).  An empty conversation performs no save.  On quota failure the code
retries with the 10 most recent messages and, if that retry succeeds, appends
the system notice to the conversation state. -/
def saveConversations (fits : List Message → Bool) (now : String)
    (stored : Option (List Message)) (conversations : List Message) :
    Option (List Message) × List Message :=
  if conversations.length > 0 then
    let toSave := if conversations.length > 50 then lastN 50 conversations else conversations
    if fits toSave then (some toSave, conversations)
    else
      let reduced := lastN 10 conversations
      if fits reduced then (some reduced, conversations ++ [quotaNotice now])
      else (stored, conversations)
  else (stored, conversations)

/-- The assistant's per-session settings, as exported. -/
structure AssistantSettings where
  selectedSource : String
  useContext : Bool
  maxContextDocs : Nat
  forceUseDocuments : Bool
  deriving Repr, DecidableEq

/-- The assistant's state relevant to export/import: the message list and the
four settings fields. -/
structure AssistantState where
  conversations : List Message
  selectedSource : String
  useContext : Bool
  maxContextDocs : Nat
  forceUseDocuments : Bool
  deriving Repr, DecidableEq

/-- The serialized export file: conversations, settings, exportDate
(part_006 lines 594-603). -/
structure ExportedFile where
  conversations : List Message
  settings : AssistantSettings
  exportDate : String
  deriving Repr, DecidableEq

/-- exportConversations (part_006 lines 587-613): with an empty conversation a
warning is shown and no file is produced; otherwise the current state is
serialized together with the export date. -/
def exportConversations (st : AssistantState) (now : String) : Option ExportedFile :=
  if st.conversations.length = 0 then none
  else
    some { conversations := st.conversations
           settings := { selectedSource := st.selectedSource
                         useContext := st.useContext
                         maxContextDocs := st.maxContextDocs
                         forceUseDocuments := st.forceUseDocuments }
           exportDate := now }

/-- The shape handleFileChange reads from a parsed import file: the
conversations field must be an array (none models absent or non-array), and
each settings field is optional. -/
structure ImportedSettings where
  selectedSource : Option String
  useContext : Option Bool
  maxContextDocs : Option Nat
  forceUseDocuments : Option Bool
  deriving Repr, DecidableEq

/-- A parsed import file as inspected by handleFileChange. -/
structure ImportedData where
  conversations : Option (List Message)
  settings : Option ImportedSettings
  deriving Repr, DecidableEq

/-- handleFileChange (part_006 lines 629-666) after JSON.parse succeeded: when
conversations is an array it replaces the history and conditionally restores
each settings field (selectedSource and maxContextDocs only when truthy, the
two flags whenever defined), returning success; otherwise the state is left
unchanged and an error notice is shown (false). -/
def handleImportedData (d : ImportedData) (st : AssistantState) : AssistantState × Bool :=
  match d.conversations with
  | some convs =>
    let st1 : AssistantState := { st with conversations := convs }
    let st2 : AssistantState :=
      match d.settings with
      | some s =>
        { st1 with
          selectedSource :=
            match s.selectedSource with
            | some v => if v = "" then st1.selectedSource else v
            | none => st1.selectedSource
          useContext := s.useContext.getD st1.useContext
          maxContextDocs :=
            match s.maxContextDocs with
            | some v => if v = 0 then st1.maxContextDocs else v
            | none => st1.maxContextDocs
          forceUseDocuments := s.forceUseDocuments.getD st1.forceUseDocuments }
      | none => st1
    (st2, true)
  | none => (st, false)

/-- Reading back an exported file: JSON.stringify followed by JSON.parse
reproduces the serialized structure, so every field is present with its
exported value. -/
def fileRoundTrip (f : ExportedFile) : ImportedData :=
  { conversations := some f.conversations
    settings := some { selectedSource := some f.settings.selectedSource
                       useContext := some f.settings.useContext
                       maxContextDocs := some f.settings.maxContextDocs
                       forceUseDocuments := some f.settings.forceUseDocuments } }

/-! ## Backend storage and destructive resets

The backend Python services are not part of the source snapshot; only the SQL
migration (src/app/db/migrations/init.sql), the OpenAPI description
(src/unnamed/part_002) and the postman collections are.  The definitions below
are therefore modelled from the spec. -/

/-- A row of the documents table (init.sql lines 10-17): the embedding column
is a nullable 3072-component vector. -/
structure DocumentRow where
  id : Nat
  title : String
  doc_metadata : String
  embedding : Option (List ℝ)
  chunking_strategy : String

/-- A row of the document_chunks table (init.sql lines 20-27). -/
structure ChunkRow where
  id : Nat
  document_id : Nat
  chunk_index : Nat
  content : String
  deriving Repr, DecidableEq

/-- The two application tables. -/
structure DbState where
  documents : List DocumentRow
  document_chunks : List ChunkRow

/-- The whole AlloyDB database as the broader clear operation sees it: every
table with its row count. -/
structure AlloyDbState where
  tables : List (String × Nat)
  deriving Repr, DecidableEq

/-- An API handler outcome: a success payload or a 400 rejection. -/
inductive ApiResult (α : Type) where
  | ok (v : α)
  | badRequest (detail : String)

/-- The HTTP status an ApiResult is sent with. -/
def httpStatus {α : Type} : ApiResult α → Nat
  | ApiResult.ok _ => 200
  | ApiResult.badRequest _ => 400

/-- Success payload of POST /clear-database (part_002 schema
ClearDatabaseResponse). -/
structure ClearDatabaseOk where
  deleted_documents : Nat
  deleted_chunks : Nat
  deriving Repr, DecidableEq

/-- Modelled from the spec: the POST /clear-database handler (the backend route
code is not in the snapshot).  The confirmation query parameter must equal the
string confirm_clear exactly; any other value is rejected with HTTP 400 before
any deletion, and on a match both application tables are emptied and the
deleted counts reported. -/
def clearDatabase (confirmation : String) (db : DbState) :
    ApiResult ClearDatabaseOk × DbState :=
  if confirmation = "confirm_clear" then
    (ApiResult.ok { deleted_documents := db.documents.length
                    deleted_chunks := db.document_chunks.length },
     { documents := [], document_chunks := [] })
  else
    (ApiResult.badRequest "Invalid confirmation parameter", db)

/-- Modelled from the spec: the POST /clear-alloydb handler (the backend route
code is not in the snapshot).  The confirmation query parameter must equal the
string confirm_clear_alloydb exactly; any other value is rejected with HTTP 400
before any deletion, and on a match every table in the database is wiped and
the number of cleared tables reported. -/
def clearAlloydb (confirmation : String) (st : AlloyDbState) :
    ApiResult Nat × AlloyDbState :=
  if confirmation = "confirm_clear_alloydb" then
    (ApiResult.ok st.tables.length,
     { tables := st.tables.map (fun t => (t.1, 0)) })
  else
    (ApiResult.badRequest "Invalid confirmation parameter", st)

/-! ## Embedding generation and persistence

Modelled from the spec: the LLM integration service sends text to the external
embedding model, receives a 3072-dimension vector, L2-normalizes it (each
component divided by the vector's Euclidean norm) and the persistence service
stores that normalized vector in the documents table's embedding column.  The
external model is a parameter; floating-point numbers are modelled as reals. -/

/-- Sum of squared components of a vector. -/
def sumSq (v : List ℝ) : ℝ :=
  (v.map (fun x => x ^ 2)).sum

/-- Euclidean norm of a vector. -/
noncomputable def euclidNorm (v : List ℝ) : ℝ :=
  Real.sqrt (sumSq v)

/-- L2 normalization: divide every component by the Euclidean norm. -/
noncomputable def normalizeEmbedding (v : List ℝ) : List ℝ :=
  v.map (fun x => x / euclidNorm v)

/-- Modelled from the spec: generate-embedding forwards the text to the
external embedding model and L2-normalizes the returned vector. -/
noncomputable def generateEmbedding (model : String → List ℝ) (text : String) : List ℝ :=
  normalizeEmbedding (model text)

/-- Modelled from the spec: inserting a document generates its embedding and
persists the normalized vector in the new row's embedding column, with a
monotonically assigned identifier. -/
noncomputable def addDocument (model : String → List ℝ) (db : DbState)
    (title meta strat content : String) : DbState :=
  { db with
    documents := db.documents ++
      [{ id := db.documents.length + 1
         title := title
         doc_metadata := meta
         embedding := some (generateEmbedding model content)
         chunking_strategy := strat }] }

/-! ## Theorems -/

/-- C10: invalidating the client cache by a prefix string deletes exactly the
entries whose key begins with that prefix; every entry whose key does not
begin with it is kept as the very same key/entry pair, so its payload, write
timestamp and time-to-live are unchanged. -/
theorem clearCacheByPrefix_frame {α : Type} (p : String) (c : Cache α)
    (kv : String × CacheEntry α) :
    kv ∈ invalidateCache p c ↔ kv ∈ c ∧ kv.1.startsWith p = false := by
  simp [invalidateCache, clearCacheByPrefix, List.mem_filter]

/-- C7 counterexample: the claim says the main client's chunk-size control
accepts exactly the values from 100 to 5000, but the slider on the main upload
page (UploadDocument.jsx) is capped at 3000, so 5000 is not selectable. -/
theorem mainChunkSlider_counterexample :
    sliderAccepts mainChunkSizeSlider 5000 = false := by decide

/-- C7 amended: on the main upload page the fixed-size chunk-size control
accepts exactly the integers 100 to 3000 and the overlap control exactly 0 to
500, with intelligent chunking as the default choice; the duplicated variant
page offers 100 to 5000 in steps of 100 and 0 to 500 in steps of 50. -/
theorem uploadSliders_spec :
    (∀ v, sliderAccepts mainChunkSizeSlider v = true ↔ 100 ≤ v ∧ v ≤ 3000) ∧
    (∀ v, sliderAccepts mainOverlapSlider v = true ↔ v ≤ 500) ∧
    (∀ v, sliderAccepts variantChunkSizeSlider v = true ↔
        100 ≤ v ∧ v ≤ 5000 ∧ v % 100 = 0) ∧
    (∀ v, sliderAccepts variantOverlapSlider v = true ↔ v ≤ 500 ∧ v % 50 = 0) ∧
    useIntelligentChunkingDefault = true := by
  refine ⟨fun v => ?_, fun v => ?_, fun v => ?_, fun v => ?_, rfl⟩ <;>
  · simp only [sliderAccepts, mainChunkSizeSlider, mainOverlapSlider,
      variantChunkSizeSlider, variantOverlapSlider, Bool.and_eq_true,
      decide_eq_true_eq, beq_iff_eq]
    omega

/-- C8: every PDF upload from the main upload page (and from its i18n variant)
sends a chunking_strategy field that is intelligent exactly when the
smart-chunking switch is on and fixed_size otherwise, and never sends a
use_intelligent_chunking field; only the older duplicated variant sends
use_intelligent_chunking and no chunking_strategy. -/
theorem uploadData_fields (b : Bool) (cs ov : Option Nat) :
    (mainUploadData b cs ov).lookup "chunking_strategy" =
      some (FormValue.str (if b then "intelligent" else "fixed_size")) ∧
    (mainUploadData b cs ov).lookup "use_intelligent_chunking" = none ∧
    (legacyUploadData b cs ov).lookup "use_intelligent_chunking" =
      some (FormValue.bool b) ∧
    (legacyUploadData b cs ov).lookup "chunking_strategy" = none :=
  ⟨rfl, rfl, rfl, rfl⟩

/-- C9: the home dashboard's chunk statistic is an estimate: when both status
requests succeed and the returned document page is non-empty it equals three
times the reported document total; it is zero when the page is empty or when
either request fails. -/
theorem fetchStats_spec :
    (∀ ts d, 0 < d.documents.length →
        (fetchStats (Except.ok ts) (Except.ok d)).totalChunks = 3 * d.total) ∧
    (∀ ts d, d.documents = [] →
        (fetchStats (Except.ok ts) (Except.ok d)).totalChunks = 0) ∧
    (∀ e docs, (fetchStats (Except.error e) docs).totalChunks = 0) ∧
    (∀ ts e, (fetchStats (Except.ok ts) (Except.error e)).totalChunks = 0) := by
  refine ⟨?_, ?_, ?_, ?_⟩
  · intro ts d h
    simp [fetchStats, h, Nat.mul_comm]
  · intro ts d h
    simp [fetchStats, h]
  · intro e docs
    cases docs <;> rfl
  · intro ts e
    rfl

/-- C9 witness: with a reachable database, a reported total of 7 and a
non-empty page, the displayed chunk count is 3 * 7. -/
theorem fetchStats_spec_witness :
    (fetchStats (Except.ok (some "t"))
        (Except.ok { total := 7, documents := [{ id := 1 }] })).totalChunks = 3 * 7 :=
  fetchStats_spec.1 (some "t") { total := 7, documents := [{ id := 1 }] } (by decide)

/-- Looking up a key in the replace-in-place image of a storage list: the new
value when the key occurs in the list, none otherwise. -/
theorem lookup_map_set (st : List (String × String)) (k v : String) :
    (st.map (fun kv => if kv.1 == k then (k, v) else kv)).lookup k =
      if st.any (fun kv => kv.1 == k) then some v else none := by
  induction st with
  | nil => simp
  | cons hd tl ih =>
    simp only [List.map_cons, List.any_cons]
    by_cases hbe : hd.1 = k
    · rw [if_pos (show (hd.1 == k) = true by simp [hbe])]
      simp [List.lookup, hbe]
    · have h1 : (hd.1 == k) = false := beq_eq_false_iff_ne.mpr hbe
      have h2 : (k == hd.1) = false := beq_eq_false_iff_ne.mpr (Ne.symm hbe)
      rw [if_neg (show ¬ (hd.1 == k) = true by simp [h1])]
      simp only [List.lookup, h2, cond_false, h1, Bool.false_or, ih]

/-- Looking up the appended key when it did not occur in the list. -/
theorem lookup_append_single (st : List (String × String)) (k v : String)
    (hany : st.any (fun kv => kv.1 == k) = false) :
    (st ++ [(k, v)]).lookup k = some v := by
  induction st with
  | nil => simp [List.lookup]
  | cons hd tl ih =>
    simp only [List.any_cons, Bool.or_eq_false_iff] at hany
    have h2 : (k == hd.1) = false := by
      cases h3 : k == hd.1
      · rfl
      · rw [beq_iff_eq] at h3
        rw [h3] at hany
        simp at hany
    simp only [List.cons_append, List.lookup, h2, cond_false]
    exact ih hany.2

/-- Looking up the key being set after storageSetItem yields the new value. -/
theorem storageSetItem_lookup_self (st : List (String × String)) (k v : String) :
    (storageSetItem st k v).lookup k = some v := by
  unfold storageSetItem
  by_cases hany : st.any (fun kv => kv.1 == k) = true
  · rw [if_pos hany, lookup_map_set, if_pos hany]
  · have hf : st.any (fun kv => kv.1 == k) = false := by
      cases h3 : st.any (fun kv => kv.1 == k)
      · rfl
      · exact absurd h3 hany
    rw [if_neg hany]
    exact lookup_append_single st k v hf

/-- Replacing the binding of one key leaves lookups of other keys unchanged. -/
theorem lookup_map_set_other (st : List (String × String)) (k v k' : String)
    (h : k' ≠ k) :
    (st.map (fun kv => if kv.1 == k then (k, v) else kv)).lookup k' = st.lookup k' := by
  have hne : (k' == k) = false := beq_eq_false_iff_ne.mpr h
  induction st with
  | nil => rfl
  | cons hd tl ih =>
    simp only [List.map_cons]
    by_cases hbe : hd.1 = k
    · rw [if_pos (show (hd.1 == k) = true by simp [hbe])]
      have h2 : (k' == hd.1) = false := by rw [hbe]; exact hne
      simp only [List.lookup, hne, h2, cond_false, ih]
    · rw [if_neg (show ¬ (hd.1 == k) = true by
        simp [beq_eq_false_iff_ne.mpr hbe])]
      by_cases h3 : k' = hd.1
      · have h4 : (k' == hd.1) = true := by simp [h3]
        simp only [List.lookup, h4, cond_true]
      · have h4 : (k' == hd.1) = false := beq_eq_false_iff_ne.mpr h3
        simp only [List.lookup, h4, cond_false, ih]

/-- storageSetItem leaves the binding of every other key unchanged. -/
theorem storageSetItem_lookup_other (st : List (String × String)) (k v k' : String)
    (h : k' ≠ k) :
    (storageSetItem st k v).lookup k' = st.lookup k' := by
  have hne : (k' == k) = false := beq_eq_false_iff_ne.mpr h
  unfold storageSetItem
  by_cases hany : st.any (fun kv => kv.1 == k) = true
  · rw [if_pos hany]
    exact lookup_map_set_other st k v k' h
  · rw [if_neg hany]
    induction st with
    | nil => simp [List.lookup, hne]
    | cons hd tl ih =>
      by_cases h3 : k' = hd.1
      · have h4 : (k' == hd.1) = true := by simp [h3]
        simp only [List.cons_append, List.lookup, h4, cond_true]
      · have h4 : (k' == hd.1) = false := beq_eq_false_iff_ne.mpr h3
        simp only [List.cons_append, List.lookup, h4, cond_false]
        exact ih (by
          intro hc
          exact hany (by simp [List.any_cons, hc]))

/-- C5: a pair failing validation against the resolved credential map makes
login return false, set the localized (non-empty) invalid-credentials message
and leave user and storage untouched; a validating pair makes it return true,
clear the error, set the user and store the user record plus the raw username
and password under the three session keys. -/
theorem login_spec (creds : List (String × String)) (lang username password : String)
    (st : AuthState) :
    (validateCredentials creds username password = false →
        login creds lang username password st =
          (false, { st with error := tAuthInvalidCredentials lang }) ∧
        tAuthInvalidCredentials lang ≠ "") ∧
    (validateCredentials creds username password = true →
        (login creds lang username password st).1 = true ∧
        (login creds lang username password st).2.error = "" ∧
        (login creds lang username password st).2.user = some username ∧
        (login creds lang username password st).2.storage.lookup "user" =
          some (jsonUserRecord username) ∧
        (login creds lang username password st).2.storage.lookup "api_username" =
          some username ∧
        (login creds lang username password st).2.storage.lookup "api_password" =
          some password) := by
  constructor
  · intro h
    refine ⟨by simp [login, h], ?_⟩
    unfold tAuthInvalidCredentials
    split <;> decide
  · intro h
    refine ⟨by simp [login, h], by simp [login, h], by simp [login, h], ?_, ?_, ?_⟩
    · simp only [login, h, if_true]
      rw [storageSetItem_lookup_other _ _ _ _ (by decide),
        storageSetItem_lookup_other _ _ _ _ (by decide),
        storageSetItem_lookup_self]
    · simp only [login, h, if_true]
      rw [storageSetItem_lookup_other _ _ _ _ (by decide),
        storageSetItem_lookup_self]
    · simp only [login, h, if_true]
      rw [storageSetItem_lookup_self]

/-- C5 witness: with the default credential map, admin with a wrong password
fails with the English error message and no state change, while admin with
the right password succeeds. -/
theorem login_spec_witness :
    login defaultCredentials "en" "admin" "wrong"
        { user := none, error := "", storage := [] } =
      (false, { user := none, error := tAuthInvalidCredentials "en", storage := [] }) ∧
    (login defaultCredentials "en" "admin" "Pa$$w0rd"
        { user := none, error := "", storage := [] }).1 = true := by
  constructor
  · exact ((login_spec defaultCredentials "en" "admin" "wrong"
      { user := none, error := "", storage := [] }).1 (by decide)).1
  · exact ((login_spec defaultCredentials "en" "admin" "Pa$$w0rd"
      { user := none, error := "", storage := [] }).2 (by decide)).1

/-- C6 counterexample: the string below is not JSON (its key is a bare
identifier) yet the resolved credential map is not the hardcoded default,
because the code falls back to evaluating the value as a JavaScript
expression before giving up. -/
theorem credentialsEnv_counterexample :
    jsonParseCredMap "\x7badmin: \"pw\"\x7d" = none ∧
    getCredentialsFromEnv (some "\x7badmin: \"pw\"\x7d") = [("admin", "pw")] ∧
    getCredentialsFromEnv (some "\x7badmin: \"pw\"\x7d") ≠ defaultCredentials := by
  refine ⟨by decide, by decide, by decide⟩

/-- C6 amended: the resolved credential map equals the JSON-parse of the
environment value when that parse succeeds; when JSON parsing fails the value
is next evaluated as a JavaScript expression and that result is used when
evaluation succeeds; the hardcoded default map is used only when the value is
absent (or empty) or both attempts fail. -/
theorem getCredentialsFromEnv_spec :
    (∀ s m, jsonParseCredMap s = some m → getCredentialsFromEnv (some s) = m) ∧
    (∀ s m, jsonParseCredMap s = none → jsEvalCredMap s = some m →
        getCredentialsFromEnv (some s) = m) ∧
    getCredentialsFromEnv none = defaultCredentials ∧
    (∀ s, jsonParseCredMap s = none → jsEvalCredMap s = none →
        getCredentialsFromEnv (some s) = defaultCredentials) := by
  refine ⟨?_, ?_, rfl, ?_⟩
  · intro s m h
    by_cases hs : s = ""
    · subst hs
      exact Option.noConfusion h
    · simp [getCredentialsFromEnv, hs, h]
  · intro s m h1 h2
    by_cases hs : s = ""
    · subst hs
      exact Option.noConfusion h2
    · simp [getCredentialsFromEnv, hs, h1, h2]
  · intro s h1 h2
    by_cases hs : s = ""
    · subst hs
      rfl
    · simp [getCredentialsFromEnv, hs, h1, h2]

/-- C6 witness: a JSON value resolves to its parse, and a bare-identifier
JavaScript object literal resolves through the eval fallback. -/
theorem getCredentialsFromEnv_spec_witness :
    getCredentialsFromEnv (some "\x7b\"a\": \"b\"\x7d") = [("a", "b")] ∧
    getCredentialsFromEnv (some "\x7bu1: \"p1\"\x7d") = [("u1", "p1")] :=
  ⟨getCredentialsFromEnv_spec.1 "\x7b\"a\": \"b\"\x7d" [("a", "b")] (by decide),
   getCredentialsFromEnv_spec.2.1 "\x7bu1: \"p1\"\x7d" [("u1", "p1")]
     (by decide) (by decide)⟩

/-- lastN returns min n (length) elements. -/
theorem lastN_length {α : Type} (n : Nat) (l : List α) :
    (lastN n l).length = min n l.length := by
  simp only [lastN, List.length_drop]
  omega

/-- lastN is a suffix of the list: it holds the most recent elements. -/
theorem lastN_suffix {α : Type} (n : Nat) (l : List α) :
    List.IsSuffix (lastN n l) l :=
  List.drop_suffix _ _

/-- lastN of a list no longer than n is the whole list. -/
theorem lastN_of_le {α : Type} (n : Nat) (l : List α) (h : l.length ≤ n) :
    lastN n l = l := by
  simp [lastN, Nat.sub_eq_zero_of_le h]

/-- C3: every save of the assistant's history persists at most the 50 most
recent messages: when the write succeeds the stored list is exactly the 50
most recent (the whole history while it is 50 or shorter), a suffix of the
conversation of length min 50 n; when the write fails with a quota error and
the retry succeeds, the stored list is the 10 most recent and a system-role
notice is appended to the conversation. -/
theorem saveConversations_spec (fits : List Message → Bool) (now : String)
    (stored : Option (List Message)) (convs : List Message) (h : convs ≠ []) :
    (fits (if convs.length > 50 then lastN 50 convs else convs) = true →
        saveConversations fits now stored convs = (some (lastN 50 convs), convs) ∧
        (lastN 50 convs).length = min 50 convs.length ∧
        List.IsSuffix (lastN 50 convs) convs) ∧
    (fits (if convs.length > 50 then lastN 50 convs else convs) = false →
      fits (lastN 10 convs) = true →
        saveConversations fits now stored convs =
          (some (lastN 10 convs), convs ++ [quotaNotice now]) ∧
        (lastN 10 convs).length = min 10 convs.length ∧
        List.IsSuffix (lastN 10 convs) convs ∧
        (quotaNotice now).role = "system") := by
  have hlen : 0 < convs.length := List.length_pos.mpr h
  have hsave : (if convs.length > 50 then lastN 50 convs else convs) = lastN 50 convs := by
    by_cases h50 : convs.length > 50
    · rw [if_pos h50]
    · rw [if_neg h50, lastN_of_le 50 convs (by omega)]
  constructor
  · intro hf
    rw [hsave] at hf
    refine ⟨?_, lastN_length 50 convs, lastN_suffix 50 convs⟩
    unfold saveConversations
    rw [if_pos hlen, hsave]
    simp only [hf, if_true]
  · intro hf hr
    rw [hsave] at hf
    refine ⟨?_, lastN_length 10 convs, lastN_suffix 10 convs, rfl⟩
    unfold saveConversations
    rw [if_pos hlen, hsave]
    simp only [hf, hr, if_true, Bool.false_eq_true, if_false]

/-- C3 witness: a one-message history is stored whole when the write fits,
and an eleven-message history whose write exceeds a ten-message quota is
stored as its 10 most recent messages with the notice appended. -/
theorem saveConversations_spec_witness :
    saveConversations (fun _ => true) "t" none [⟨"user", "hi", false, "t"⟩] =
      (some (lastN 50 [(⟨"user", "hi", false, "t"⟩ : Message)]),
       [⟨"user", "hi", false, "t"⟩]) ∧
    saveConversations (fun l => decide (l.length ≤ 10)) "t" none
        (List.replicate 11 ⟨"user", "hi", false, "t"⟩) =
      (some (lastN 10 (List.replicate 11 (⟨"user", "hi", false, "t"⟩ : Message))),
       List.replicate 11 (⟨"user", "hi", false, "t"⟩ : Message) ++ [quotaNotice "t"]) := by
  constructor
  · exact ((saveConversations_spec (fun _ => true) "t" none _ (by decide)).1 rfl).1
  · exact ((saveConversations_spec (fun l => decide (l.length ≤ 10)) "t" none _
      (by decide)).2 (by decide) (by decide)).1

/-- C4: exporting the assistant's history and immediately importing the
exported file reproduces the identical ordered message list and restores all
four settings fields to their exported values (for any reachable state: a
non-empty history, a non-empty source filter and a non-zero context-document
count), regardless of the state the import is applied to. -/
theorem exportImport_roundtrip (st st2 : AssistantState) (now : String)
    (f : ExportedFile) (hexp : exportConversations st now = some f)
    (hsrc : st.selectedSource ≠ "") (hmax : st.maxContextDocs ≠ 0) :
    handleImportedData (fileRoundTrip f) st2 =
      ({ conversations := st.conversations
         selectedSource := st.selectedSource
         useContext := st.useContext
         maxContextDocs := st.maxContextDocs
         forceUseDocuments := st.forceUseDocuments }, true) := by
  unfold exportConversations at hexp
  by_cases h0 : st.conversations.length = 0
  · rw [if_pos h0] at hexp
    exact Option.noConfusion hexp
  · rw [if_neg h0] at hexp
    have hf := (Option.some.injEq _ _).mp hexp
    subst hf
    simp [handleImportedData, fileRoundTrip, hsrc, hmax]

/-- C4 witness: a concrete one-message state with default settings exported
and re-imported over a different state reproduces the exported state. -/
theorem exportImport_roundtrip_witness :
    handleImportedData
        (fileRoundTrip ⟨[⟨"user", "q", false, "t"⟩], ⟨"all", true, 5, false⟩, "t"⟩)
        ⟨[], "x", false, 3, true⟩ =
      ((⟨[⟨"user", "q", false, "t"⟩], "all", true, 5, false⟩ : AssistantState), true) :=
  exportImport_roundtrip
    ⟨[⟨"user", "q", false, "t"⟩], "all", true, 5, false⟩
    ⟨[], "x", false, 3, true⟩
    "t" ⟨[⟨"user", "q", false, "t"⟩], ⟨"all", true, 5, false⟩, "t"⟩
    rfl (by decide) (by decide)

/-- C2: a clear-database or clear-alloydb invocation whose confirmation value
is not exactly the fixed token is answered with HTTP 400 and leaves the stored
state unchanged; with the exact token the scoped clear empties both
application tables and the broad clear wipes every table, each with HTTP 200. -/
theorem clearEndpoints_spec (conf conf2 : String) (db : DbState) (adb : AlloyDbState)
    (h : conf ≠ "confirm_clear") (h2 : conf2 ≠ "confirm_clear_alloydb") :
    httpStatus (clearDatabase conf db).1 = 400 ∧
    (clearDatabase conf db).2 = db ∧
    httpStatus (clearAlloydb conf2 adb).1 = 400 ∧
    (clearAlloydb conf2 adb).2 = adb ∧
    (clearDatabase "confirm_clear" db).2.documents = [] ∧
    (clearDatabase "confirm_clear" db).2.document_chunks = [] ∧
    httpStatus (clearDatabase "confirm_clear" db).1 = 200 ∧
    (clearAlloydb "confirm_clear_alloydb" adb).2.tables =
      adb.tables.map (fun t => (t.1, 0)) ∧
    httpStatus (clearAlloydb "confirm_clear_alloydb" adb).1 = 200 := by
  refine ⟨?_, ?_, ?_, ?_, ?_, ?_, ?_, ?_, ?_⟩ <;>
    simp [clearDatabase, clearAlloydb, httpStatus, h, h2]

/-- C2 witness: a wrong token is rejected with 400 and changes nothing, the
exact token clears. -/
theorem clearEndpoints_spec_witness :
    httpStatus (clearDatabase "nope" { documents := [], document_chunks := [] }).1 = 400 ∧
    (clearAlloydb "nope" { tables := [("documents", 3)] }).2 =
      { tables := [("documents", 3)] } ∧
    httpStatus (clearDatabase "confirm_clear"
      { documents := [], document_chunks := [] }).1 = 200 := by
  have h := clearEndpoints_spec "nope" "nope"
    { documents := [], document_chunks := [] } { tables := [("documents", 3)] }
    (by decide) (by decide)
  exact ⟨h.1, h.2.2.2.1, h.2.2.2.2.2.2.1⟩

/-- Sum of squares of the empty vector. -/
theorem sumSq_nil : sumSq [] = 0 := rfl

/-- Sum of squares unfolded one component. -/
theorem sumSq_cons (a : ℝ) (l : List ℝ) : sumSq (a :: l) = a ^ 2 + sumSq l := by
  simp [sumSq]

/-- A sum of squares is nonnegative. -/
theorem sumSq_nonneg (v : List ℝ) : 0 ≤ sumSq v := by
  induction v with
  | nil => simp [sumSq]
  | cons a l ih =>
    rw [sumSq_cons]
    exact add_nonneg (sq_nonneg a) ih

/-- Dividing every component scales the sum of squares by the square. -/
theorem sumSq_map_div (v : List ℝ) (c : ℝ) :
    sumSq (v.map (fun x => x / c)) = sumSq v / c ^ 2 := by
  induction v with
  | nil => simp [sumSq]
  | cons a l ih =>
    simp only [List.map_cons, sumSq_cons, ih, div_pow, add_div]

/-- Normalization preserves the number of components. -/
theorem length_normalizeEmbedding (v : List ℝ) :
    (normalizeEmbedding v).length = v.length := by
  simp [normalizeEmbedding]

/-- The normalized vector of any vector with non-zero sum of squares has
Euclidean norm exactly 1. -/
theorem euclidNorm_normalizeEmbedding (v : List ℝ) (h : sumSq v ≠ 0) :
    euclidNorm (normalizeEmbedding v) = 1 := by
  have h0 : 0 ≤ sumSq v := sumSq_nonneg v
  have hsq : euclidNorm v ^ 2 = sumSq v := by
    rw [euclidNorm]
    exact Real.sq_sqrt h0
  have hone : sumSq (normalizeEmbedding v) = 1 := by
    rw [normalizeEmbedding, sumSq_map_div, hsq, div_self h]
  rw [euclidNorm, hone, Real.sqrt_one]

/-- C1: for any non-empty input text, the embedding returned by the
embedding-generation operation has exactly 3072 components and Euclidean norm
exactly 1 (hence within the 1e-4 tolerance), under the boundary assumptions
that the external model returns a 3072-component vector that is not all
zeros; and a document insert persists exactly that normalized vector in the
new row's embedding column. -/
theorem generateEmbedding_spec (model : String → List ℝ) (text : String)
    (db : DbState) (title meta strat : String) (htext : text ≠ "")
    (hdim : (model text).length = 3072) (hnz : sumSq (model text) ≠ 0) :
    (generateEmbedding model text).length = 3072 ∧
    euclidNorm (generateEmbedding model text) = 1 ∧
    |euclidNorm (generateEmbedding model text) - 1| ≤ 1 / 10000 ∧
    (addDocument model db title meta strat text).documents =
      db.documents ++
        [{ id := db.documents.length + 1
           title := title
           doc_metadata := meta
           embedding := some (generateEmbedding model text)
           chunking_strategy := strat }] := by
  have h1 : euclidNorm (generateEmbedding model text) = 1 :=
    euclidNorm_normalizeEmbedding _ hnz
  refine ⟨?_, h1, ?_, rfl⟩
  · rw [generateEmbedding, length_normalizeEmbedding, hdim]
  · rw [h1]
    norm_num

/-- C1 witness: a unit-coordinate model output of dimension 3072 yields a
3072-component embedding of norm 1. -/
theorem generateEmbedding_spec_witness :
    (generateEmbedding (fun _ => (1 : ℝ) :: List.replicate 3071 0) "hello").length
      = 3072 ∧
    euclidNorm (generateEmbedding (fun _ => (1 : ℝ) :: List.replicate 3071 0)
      "hello") = 1 := by
  have hrep : ∀ n : Nat, sumSq (List.replicate n (0 : ℝ)) = 0 := by
    intro n
    induction n with
    | zero => rfl
    | succ n ih =>
      rw [List.replicate_succ, sumSq_cons, ih]
      norm_num
  have hone : sumSq ((1 : ℝ) :: List.replicate 3071 0) = 1 := by
    rw [sumSq_cons, hrep 3071]
    norm_num
  have h := generateEmbedding_spec (fun _ => (1 : ℝ) :: List.replicate 3071 0)
    "hello" { documents := [], document_chunks := [] } "t" "m" "s"
    (by decide)
    (by rw [List.length_cons, List.length_replicate])
    (by rw [hone]; norm_num)
  exact ⟨h.1, h.2.1⟩

end GeminiVS
